import Mathlib

/-!
Verification of the MIDAS filesystem helper module
(`midas/modules/lib/helpers/filesystem.py`).

The Python functions under scrutiny are shallow-embedded below.  Filesystem
state is passed explicitly as records of pure functions (`isfile`, `read`,
etc.); CPython-specific behaviour that the code depends on (`sys.getsizeof`
object sizes, `base64.b64decode`, `re` pattern compilation on the three-digit
octal permission strings used here) is modelled by executable Lean functions,
each documented at its definition.  Exceptions are modelled with `Except`:
the Python code under study catches only `IOError` in one place, so every
other raised exception surfaces as an `Except.error`.
-/

set_option autoImplicit false

/-- Python exception kinds that the embedded fragments can raise. -/
inductive PyErr where
  | ioError
  | indexError
  | binasciiError
  | typeError
  | stopIteration
  | reError
  | nameError
  deriving DecidableEq, Repr

/-! ## Character-list utilities (Python `str.split`, `in`, `strip`) -/

/-- Python `s.split(sep)` for a one-character separator: splits on every
occurrence, keeping empty fields; the result is always non-empty. -/
def splitOnChar (sep : Char) : List Char → List (List Char)
  | [] => [[]]
  | c :: cs =>
    if c = sep then [] :: splitOnChar sep cs
    else
      match splitOnChar sep cs with
      | [] => [[c]]
      | g :: gs => (c :: g) :: gs

theorem splitOnChar_ne_nil (sep : Char) (l : List Char) : splitOnChar sep l ≠ [] := by
  induction l with
  | nil => simp [splitOnChar]
  | cons c cs ih =>
    by_cases h : c = sep
    · simp [splitOnChar, h]
    · simp only [splitOnChar, if_neg h]
      cases splitOnChar sep cs with
      | nil => simp
      | cons g gs => simp

/-- Python `s.split(sep)` lifted to `String`s. -/
def splitOnCharStr (sep : Char) (s : String) : List String :=
  (splitOnChar sep s.data).map String.mk

/-- Python `lst[-1]` for a possibly-empty list, with a default for `[]`
(the split results it is applied to are never empty). -/
def lastElemD {α : Type} (d : α) : List α → α
  | [] => d
  | [a] => a
  | _ :: b :: rest => lastElemD d (b :: rest)

theorem lastElemD_cons_cons {α : Type} (d x b : α) (rest : List α) :
    lastElemD d (x :: b :: rest) = lastElemD d (b :: rest) := rfl

/-- Python `s.split(sep)[-1]`: the last field of the split. -/
def lastField (sep : Char) (l : List Char) : List Char :=
  lastElemD [] (splitOnChar sep l)

theorem not_mem_lastField (sep : Char) (l : List Char) : sep ∉ lastField sep l := by
  induction l with
  | nil => simp [lastField, splitOnChar, lastElemD]
  | cons c cs ih =>
    by_cases h : c = sep
    · simp only [lastField, splitOnChar, if_pos h] at ih ⊢
      cases hs : splitOnChar sep cs with
      | nil => exact absurd hs (splitOnChar_ne_nil sep cs)
      | cons g gs =>
        rw [hs] at ih
        rw [lastElemD_cons_cons]
        exact ih
    · simp only [lastField, splitOnChar, if_neg h] at ih ⊢
      cases hs : splitOnChar sep cs with
      | nil => exact absurd hs (splitOnChar_ne_nil sep cs)
      | cons g gs =>
        rw [hs] at ih
        cases gs with
        | nil =>
          simp only [lastElemD] at ih ⊢
          intro hmem
          rcases List.mem_cons.mp hmem with h1 | h2
          · exact h h1.symm
          · exact ih h2
        | cons g₂ gs₂ =>
          rw [lastElemD_cons_cons] at ih ⊢
          exact ih

theorem splitOnChar_of_not_mem (sep : Char) (l : List Char) (h : sep ∉ l) :
    splitOnChar sep l = [l] := by
  induction l with
  | nil => rfl
  | cons c cs ih =>
    have hc : c ≠ sep := fun hcs => h (hcs ▸ List.mem_cons_self c cs)
    have hcs : sep ∉ cs := fun hm => h (List.mem_cons_of_mem c hm)
    simp only [splitOnChar, if_neg hc, ih hcs]

theorem lastField_idem (sep : Char) (l : List Char) :
    lastField sep (lastField sep l) = lastField sep l := by
  have h := not_mem_lastField sep l
  rw [lastField, splitOnChar_of_not_mem sep _ h]
  rfl

/-- Python `name.split(".")[-1]` lifted to `String`s, as used by `hash_kext`. -/
def lastDotStr (s : String) : String :=
  String.mk (lastField '.' s.data)

theorem lastDotStr_idem (s : String) : lastDotStr (lastDotStr s) = lastDotStr s := by
  simp [lastDotStr, lastField_idem]

/-- Python substring test `needle in hay`. -/
def hasSub (needle : List Char) : List Char → Bool
  | [] => needle.isEmpty
  | c :: cs => needle.isPrefixOf (c :: cs) || hasSub needle cs

/-! ## CPython `sys.getsizeof`

The source calls `sys.getsizeof` where it plainly means a length:
`getsizeof(b64decode(key))` in `list_weak_keys` (its docstring speaks of the
decoded "length of < 300 bytes") and `getsizeof(filename)` in `is_ssh_key`
(the spec speaks of the file's size).  `sys.getsizeof` returns the object's
memory footprint: on a 64-bit CPython 3 build this is `len + 33` bytes for a
`bytes` object (32-byte `PyBytesObject` header plus NUL terminator) and
`len + 49` bytes for a compact ASCII `str`. -/

/-- CPython 64-bit `sys.getsizeof` of a `bytes` object with the given payload. -/
def getsizeofBytes (payload : List Nat) : Nat := payload.length + 33

/-- CPython 64-bit `sys.getsizeof` of a compact ASCII `str`. -/
def getsizeofStr (s : String) : Nat := s.length + 49

/-! ## `base64.b64decode` (default `validate=False`)

Characters outside the base64 alphabet (and not `=`) are discarded, then the
remainder is decoded in four-character groups, with `=` accepted as trailing
padding and a leftover group raising `binascii.Error`.  This matches CPython
exactly on cleanly padded or unpadded input — everything the claims below
exercise — and is *stricter* than CPython's lenient `binascii` on exotic
interior or misplaced padding (e.g. CPython decodes `AB==CD==` to one byte
where this model raises); no theorem evaluates the model there. -/

/-- Value of a base64 alphabet character, `none` for anything else. -/
def b64val (c : Char) : Option Nat :=
  if 65 ≤ c.toNat ∧ c.toNat ≤ 90 then some (c.toNat - 65)
  else if 97 ≤ c.toNat ∧ c.toNat ≤ 122 then some (c.toNat - 97 + 26)
  else if 48 ≤ c.toNat ∧ c.toNat ≤ 57 then some (c.toNat - 48 + 52)
  else if c = '+' then some 62
  else if c = '/' then some 63
  else none

/-- Decode a filtered base64 string four characters at a time. -/
def b64quads : List Char → Except PyErr (List Nat)
  | [] => .ok []
  | a :: b :: c :: d :: rest =>
    match b64val a, b64val b with
    | some va, some vb =>
      if d = '=' then
        if rest.isEmpty then
          if c = '=' then .ok [va * 4 + vb / 16]
          else
            match b64val c with
            | some vc => .ok [va * 4 + vb / 16, (vb % 16) * 16 + vc / 4]
            | none => .error .binasciiError
        else .error .binasciiError
      else
        match b64val c, b64val d with
        | some vc, some vd =>
          (b64quads rest).map
            (fun t => (va * 4 + vb / 16) :: ((vb % 16) * 16 + vc / 4) :: ((vc % 4) * 64 + vd) :: t)
        | _, _ => .error .binasciiError
    | _, _ => .error .binasciiError
  | _ => .error .binasciiError

/-- Python `base64.b64decode` restricted to the behaviour `list_weak_keys`
relies on: returns the decoded bytes, or `binascii.Error` for input whose
kept characters do not form complete groups. -/
def b64decode (s : String) : Except PyErr (List Nat) :=
  b64quads (s.data.filter (fun c => (b64val c).isSome || c = '='))

/-! ## `list_weak_keys`: per-line classification

```python
alg = line.split(' ')[0]
key = line.split(' ')[1]
if alg == "ssh-rsa" and getsizeof(b64decode(key)) < 300:
    weak_keys.append(i)
elif alg == "ssh-dss":
    weak_keys.append(i)
```

A line with fewer than two space-separated fields raises `IndexError` at
`[1]`; `b64decode` is reached only when the first field is `"ssh-rsa"`
(Python's `and` short-circuits) and may raise `binascii.Error`. -/

/-- Whether one `authorized_keys` line is classified weak, or the exception
its processing raises. -/
def weakLine (line : String) : Except PyErr Bool :=
  match splitOnCharStr ' ' line with
  | alg :: key :: _ =>
    if alg = "ssh-rsa" then
      match b64decode key with
      | .error e => .error e
      | .ok bs => .ok (decide (getsizeofBytes bs < 300))
    else .ok (decide (alg = "ssh-dss"))
  | _ => .error .indexError

example : weakLine "ssh-dss AAAA" = .ok true := rfl
example : weakLine "ssh-rsa AAAA" = .ok true := rfl
example : weakLine "x" = .error .indexError := rfl
example : weakLine "ssh-rsa AAAAA" = .error .binasciiError := rfl

/-! ## Python `re` on permission patterns

`find_with_perms` calls `re.match(perms, three-octal-digit-string)` with a
caller-supplied pattern.  The fragment of `re` modelled here covers the
permission patterns the module is built for: a sequence of literal
characters (with `.` as the any-character wildcard), each optionally
followed by an `\x7bn\x7d` repetition count.  Any other construct is
rejected at compile time.  That rejection agrees with CPython's
`re.compile` on the patterns the claims exercise (`7\x7b3\x7d` compiles in
both, the unbalanced `(` raises `re.error` in both) but is wider than
CPython's on constructs outside the fragment (CPython accepts e.g. `7*` or
a character class); no theorem evaluates the model at such patterns.
`re.match` anchors at the start of the subject and does not require the
whole subject to be consumed. -/

/-- One atom of a compiled pattern. -/
inductive RAtom where
  | lit (c : Char)
  | dot
  deriving DecidableEq, Repr

/-- State of the single pass that compiles a pattern string. -/
inductive RState where
  | start
  | after (a : RAtom)
  | brace (a : RAtom) (ds : List Char)
  deriving Repr

/-- Characters that this `re` fragment does not support as literals. -/
def reSpecial (c : Char) : Bool :=
  c = '(' || c = ')' || c = '[' || c = ']' || c = '*' || c = '+' ||
  c = '?' || c = '|' || c = '\\' || c = '^' || c = '$'

/-- The atom denoted by a non-special pattern character. -/
def reAtomOf (c : Char) : RAtom :=
  if c = '.' then .dot else .lit c

/-- Numeric value of a digit string. -/
def natOfDigits (ds : List Char) : Nat :=
  ds.foldl (fun n c => n * 10 + (c.toNat - 48)) 0

/-- Compile a pattern string into `(atom, repetition)` pairs, or `re.error`. -/
def reCompAux (st : RState) : List Char → Except PyErr (List (RAtom × Nat))
  | [] =>
    match st with
    | .start => .ok []
    | .after a => .ok [(a, 1)]
    | .brace _ _ => .error .reError
  | c :: cs =>
    match st with
    | .start =>
      if c = '\x7b' || c = '\x7d' || reSpecial c then .error .reError
      else reCompAux (.after (reAtomOf c)) cs
    | .after a =>
      if c = '\x7b' then reCompAux (.brace a []) cs
      else if c = '\x7d' || reSpecial c then .error .reError
      else (reCompAux (.after (reAtomOf c)) cs).map ((a, 1) :: ·)
    | .brace a ds =>
      if c.isDigit then reCompAux (.brace a (ds ++ [c])) cs
      else if c = '\x7d' then
        if ds.isEmpty then .error .reError
        else (reCompAux .start cs).map ((a, natOfDigits ds) :: ·)
      else .error .reError

/-- Does an atom match one subject character? -/
def rAtomMatches : RAtom → Char → Bool
  | .lit c, d => c = d
  | .dot, _ => true

/-- Anchored prefix match of an expanded atom sequence against a subject. -/
def reMatchList : List RAtom → List Char → Bool
  | [], _ => true
  | _ :: _, [] => false
  | a :: as, c :: cs => rAtomMatches a c && reMatchList as cs

/-- Python `re.match(perms, s) is not None`, with `re.error` surfaced:
the pattern is compiled at every call, as in the source. -/
def reMatchE (perms : String) (s : String) : Except PyErr Bool :=
  match reCompAux .start perms.data with
  | .error e => .error e
  | .ok p => .ok (reMatchList (p.flatMap (fun an => List.replicate an.2 an.1)) s.data)

example : reMatchE "7{3}" "777" = .ok true := rfl
example : reMatchE "7{3}" "644" = .ok false := rfl
example : reMatchE "7{3}" "7775" = .ok true := rfl
example : reMatchE "(" "777" = .error .reError := rfl

/-! ## The filesystem tree model and `find_with_perms`

A directory tree is an inductive value; `mode` is the full `st_mode` word
(type bits included), as returned by `os.stat`.  `os.walk` visits
directories top-down, the walked root first; `oct(mode)[-3:]` is the last
three characters of Python's octal rendering `0o...`. -/

inductive FSNode where
  | file (name : String) (mode : Nat)
  | dir (name : String) (mode : Nat) (children : List FSNode)
  deriving Repr

/-- The entry name of a node. -/
def FSNode.name : FSNode → String
  | .file n _ => n
  | .dir n _ _ => n

/-- Python `oct(m)[-3:]`. -/
def octLast3 (m : Nat) : String :=
  let s := '0' :: 'o' :: Nat.toDigits 8 m
  String.mk (s.drop (s.length - 3))

example : octLast3 0o40777 = "777" := rfl
example : octLast3 0o100644 = "644" := rfl

mutual

/-- `os.walk` top-down: every visited directory with its mode and children. -/
def walkDirs : String → FSNode → List (String × Nat × List FSNode)
  | _, .file _ _ => []
  | p, .dir _ m ch => (p, m, ch) :: walkChildren p ch

/-- Walk the subdirectories of a visited directory, in listing order. -/
def walkChildren : String → List FSNode → List (String × Nat × List FSNode)
  | _, [] => []
  | p, c :: cs => walkDirs (p ++ "/" ++ c.name) c ++ walkChildren p cs

end

/-- The `files.extend(... for fname in list_files_in_dir(i) if
match(perms, oct(stat(i)[ST_MODE])[-3:]))` loop of `find_with_perms`:
note that the source tests the mode of the visited directory `i`, once per
contained file, not the mode of the file itself. -/
def fwpFiles (perms : String) (dmode : Nat) (p : String) : List FSNode → Except PyErr (List String)
  | [] => .ok []
  | c :: cs =>
    match c with
    | .file fname _ =>
      match reMatchE perms (octLast3 dmode) with
      | .error e => .error e
      | .ok b =>
        (fwpFiles perms dmode p cs).map (fun r => if b then (p ++ "/" ++ fname) :: r else r)
    | .dir _ _ _ => fwpFiles perms dmode p cs

/-- Processing of one visited directory: its own mode test, then its files. -/
def fwpVisit (perms : String) (p : String) (dmode : Nat) (ch : List FSNode) :
    Except PyErr (List String) :=
  match reMatchE perms (octLast3 dmode) with
  | .error e => .error e
  | .ok dirHit =>
    match fwpFiles perms dmode p ch with
    | .error e => .error e
    | .ok fl => .ok ((if dirHit then [p] else []) ++ fl)

/-- The walk loop of `find_with_perms`. -/
def fwpGo (perms : String) : List (String × Nat × List FSNode) → Except PyErr (List String)
  | [] => .ok []
  | (p, m, ch) :: rest =>
    match fwpVisit perms p m ch with
    | .error e => .error e
    | .ok here =>
      match fwpGo perms rest with
      | .error e => .error e
      | .ok there => .ok (here ++ there)

/-- `find_with_perms(directory, perms)` over the modelled tree rooted at
`root` (the caller-supplied path string) with shape `t`. -/
def find_with_perms (root : String) (t : FSNode) (perms : String) :
    Except PyErr (List String) :=
  fwpGo perms (walkDirs root t)

example :
    find_with_perms "/t"
      (.dir "t" 0o40777 [.file "a" 0o100777, .file "b" 0o100644]) "7{3}" =
      .ok ["/t", "/t/a", "/t/b"] := rfl
example :
    find_with_perms "/t"
      (.dir "t" 0o40755 [.file "a" 0o100777, .file "b" 0o100644]) "7{3}" =
      .ok [] := rfl

/-! ## Home-directory queries: `list_authorized_keys`, `list_ssh_keys`,
`list_weak_keys`

These functions see the filesystem through `isfile`, `open`/line iteration,
and `list_dirs_in_dir("/Users/")`; `HFS` packages exactly that view.
`read p = none` means `open(p)` raises `IOError`; `some lines` is the list
of lines the file iterator yields. -/

structure HFS where
  /-- The value of `list_dirs_in_dir("/Users/")`: each directory entry of
  `/Users/` as the full path `"/Users/" + name`. -/
  homes : List String
  isfile : String → Bool
  read : String → Option (List String)

/-- `list_home_dirs()`; the `/Users` enumeration itself is mechanical and
supplied by the filesystem view. -/
def list_home_dirs (fs : HFS) : List String := fs.homes

/-- `list_authorized_keys()`: `/var/root/` candidates first (note the
double slash produced by `"/".join` on an element that already ends in
`/`), then per home directory `.ssh/authorized_keys` and
`.ssh2/authorized_keys`, keeping existing files. -/
def list_authorized_keys (fs : HFS) : List String :=
  let files := [".ssh/authorized_keys", ".ssh2/authorized_keys"]
  (files.map (fun f => "/var/root/" ++ "/" ++ f)).filter fs.isfile ++
    ((list_home_dirs fs).flatMap (fun h => files.map (fun f => h ++ "/" ++ f))).filter fs.isfile

/-- The `ssh_keys` list computed at the top of `list_ssh_keys`:
`<home>/.ssh/id_rsa` for each home directory, kept when it is a file. -/
def sshKeyCandidates (fs : HFS) : List String :=
  ((list_home_dirs fs).map (fun h => h ++ "/" ++ ".ssh/id_rsa")).filter fs.isfile

/-- The passphrase scan of `list_ssh_keys`: line by line, stopping at the
first line containing the literal `ENCRYPTED`. -/
def hasPassphraseScan : List String → Bool
  | [] => false
  | l :: ls => if hasSub "ENCRYPTED".data l.data then true else hasPassphraseScan ls

/-- The `no_password` filtering loop of `list_ssh_keys`.  `open` is not
wrapped in any handler there, so an unreadable key file raises `IOError`
out of the whole call. -/
def sshNoPassGo (fs : HFS) : List String → Except PyErr (List String)
  | [] => .ok []
  | k :: ks =>
    match fs.read k with
    | none => .error .ioError
    | some lines =>
      match sshNoPassGo fs ks with
      | .error e => .error e
      | .ok rest => .ok (if hasPassphraseScan lines then rest else k :: rest)

/-- `list_ssh_keys(no_password)`. -/
def list_ssh_keys (fs : HFS) (no_password : Bool) : Except PyErr (List String) :=
  let ssh_keys := sshKeyCandidates fs
  if !no_password then .ok ssh_keys
  else sshNoPassGo fs ssh_keys

/-- The line loop of `list_weak_keys` for one opened file: each weak line
appends the file's path once; `IndexError`/`binascii.Error` from a line
propagates (only `IOError` is caught by the source). -/
def weakKeysOfLines (path : String) : List String → Except PyErr (List String)
  | [] => .ok []
  | l :: ls =>
    match weakLine l with
    | .error e => .error e
    | .ok w => (weakKeysOfLines path ls).map (fun r => if w then path :: r else r)

/-- The file loop of `list_weak_keys`: `except IOError: pass` skips a file
that cannot be opened; any other exception escapes. -/
def weakKeysOfFiles (fs : HFS) : List String → Except PyErr (List String)
  | [] => .ok []
  | f :: rest =>
    match fs.read f with
    | none => weakKeysOfFiles fs rest
    | some ls =>
      match weakKeysOfLines f ls with
      | .error e => .error e
      | .ok here => (weakKeysOfFiles fs rest).map (fun r => here ++ r)

/-- `list_weak_keys()`. -/
def list_weak_keys (fs : HFS) : Except PyErr (List String) :=
  weakKeysOfFiles fs (list_authorized_keys fs)

/-- Number of lines of a file that `list_weak_keys` classifies weak. -/
def weakCountLines (ls : List String) : Nat :=
  (ls.filter (fun l =>
    match weakLine l with
    | .ok true => true
    | _ => false)).length

/-! ## `is_ssh_key`

```python
if isfile(filename) and getsizeof(filename) < 10000:
    with open(filename, 'rb') as key:
        line1 = next(key)
        return match("^[-]*BEGIN.*PRIVATE KEY[-]*$", line1) is not None
else:
    return False
```

`getsizeof(filename)` is the memory footprint of the *path string*; the
file's on-disk size is never consulted.  There is no exception handling:
an unreadable file raises `IOError` from `open`, an empty file raises
`StopIteration` from `next`, and for a non-empty file `line1` is a `bytes`
object (the file is opened in `'rb'` mode), so `re.match` with the `str`
pattern raises `TypeError` on Python 3 — the repository targets Python 3
(it uses f-strings and walrus assignments), so the header comparison is
never actually performed. -/

structure SFS where
  isfile : String → Bool
  /-- On-disk size in bytes; recorded in the model because the claim under
  scrutiny speaks of it, although `is_ssh_key` never consults it. -/
  size : String → Nat
  read : String → Option (List String)

/-- `is_ssh_key(filename)`. -/
def is_ssh_key (fs : SFS) (filename : String) : Except PyErr Bool :=
  if fs.isfile filename && decide (getsizeofStr filename < 10000) then
    match fs.read filename with
    | none => .error .ioError
    | some [] => .error .stopIteration
    | some (_ :: _) => .error .typeError
  else .ok false

/-! ## `hash_kext`

`hash_file` is `sha1(file(filename, 'r').read()).hexdigest()`.  The
`file()` builtin is Python 2 only; on the Python 3 this repository targets
(it uses f-strings and walrus assignments) the name does not exist, so the
call raises `NameError` before any I/O happens and no digest is ever
produced. -/

structure KFS where
  isfile : String → Bool

/-- `hash_file(filename)`: raises `NameError` at the `file(filename, 'r')`
call on Python 3, whatever the file holds. -/
def hash_file (_fs : KFS) (_p : String) : Except PyErr String := .error .nameError

/-- Characters removed by Python's `'...'.strip('.kext')`: `strip` takes a
character *set*, not a suffix. -/
def kextStripChar (c : Char) : Bool :=
  c = '.' || c = 'k' || c = 'e' || c = 'x' || c = 't'

/-- Python `s.strip('.kext')`: drop characters of the set from both ends. -/
def pyStripKext (l : List Char) : List Char :=
  ((l.dropWhile kextStripChar).reverse.dropWhile kextStripChar).reverse

/-- The `for i in kextfind:` loop of `hash_kext`: the first catalog bundle
whose last path component, stripped, equals the short name *and* whose
`Contents/MacOS` executable is a file; `break` stops the search there. -/
def findCatalog (fs : KFS) (kext : String) : List String → Option String
  | [] => none
  | i :: rest =>
    if String.mk (pyStripKext (lastField '/' i.data)) = kext then
      let path := i ++ "/Contents/MacOS/" ++ kext
      if fs.isfile path then some path else findCatalog fs kext rest
    else findCatalog fs kext rest

/-- The four fallback paths of `hash_kext`, in source order. -/
def kextCandidates (k : String) : List String :=
  ["/System/Library/Extensions/" ++ k ++ ".kext/Contents/MacOS/" ++ k,
   "/System/Library/Extensions/Apple" ++ k ++ ".kext/Contents/MacOS/Apple" ++ k,
   "/System/Library/Extensions/" ++ k ++ ".kext/" ++ k,
   "/System/Library/Filesystems/AppleShare/" ++ k ++ ".kext/Contents/MacOS/" ++ k]

/-- `hash_kext(kextfind, kext)`: reduce the name to its last dot-separated
component, search the catalog (`for`/`else`: the fallback chain runs only
when the loop ends without `break`), then try four fixed locations one
after another — each `return`s `hash_file` of its path as soon as `isfile`
holds, which on Python 3 raises `NameError` — and finally
`return found if found is None else hash_file(found)`, so the call
returns `None` only when nothing resolved at all. -/
def hash_kext (fs : KFS) (kextfind : List String) (kext0 : String) :
    Except PyErr (Option String) :=
  let kext := lastDotStr kext0
  match findCatalog fs kext kextfind with
  | some found => (hash_file fs found).map some
  | none =>
    let p1 := "/System/Library/Extensions/" ++ kext ++ ".kext/Contents/MacOS/" ++ kext
    if fs.isfile p1 then (hash_file fs p1).map some
    else
      let p2 := "/System/Library/Extensions/Apple" ++ kext ++ ".kext/Contents/MacOS/Apple" ++ kext
      if fs.isfile p2 then (hash_file fs p2).map some
      else
        let p3 := "/System/Library/Extensions/" ++ kext ++ ".kext/" ++ kext
        if fs.isfile p3 then (hash_file fs p3).map some
        else
          let p4 := "/System/Library/Filesystems/AppleShare/" ++ kext ++ ".kext/Contents/MacOS/" ++ kext
          if fs.isfile p4 then (hash_file fs p4).map some
          else .ok none

/-! ## Concrete filesystem states used by the claim theorems -/

/-- Base64 encoding of a 299-byte key blob: ninety-nine `AAAA` groups and a
final singly-padded group, so the decode is `3 * 99 + 2 = 299` bytes. -/
def c1key : String := String.mk (List.replicate 396 'A' ++ "AAA=".data)

/-- An `ssh-rsa` `authorized_keys` line whose key material decodes to 299
bytes. -/
def c1line : String := "ssh-rsa " ++ c1key

/-- A directory of mode `777` holding a `777` file and a `644` file. -/
def treeC2a : FSNode :=
  .dir "t" 0o40777 [.file "a" 0o100777, .file "b" 0o100644]

/-- The same directory with its own mode `755` instead. -/
def treeC2b : FSNode :=
  .dir "t" 0o40755 [.file "a" 0o100777, .file "b" 0o100644]

/-- A host with one kext catalog miss and both the plain and the
`Apple`-prefixed fallback executables present. -/
def kfsC4 : KFS :=
  { isfile := fun p =>
      p == "/System/Library/Extensions/Foo.kext/Contents/MacOS/Foo" ||
      p == "/System/Library/Extensions/AppleFoo.kext/Contents/MacOS/AppleFoo" }

/-- A host with one existing but unreadable candidate key file of on-disk
size 20000 bytes. -/
def sfsC5 : SFS :=
  { isfile := fun p => p == "/k"
    size := fun p => if p == "/k" then 20000 else 0
    read := fun _ => none }

/-- One home directory whose `id_rsa` exists but cannot be opened. -/
def fsC6 : HFS :=
  { homes := ["/Users/alice"]
    isfile := fun p => p == "/Users/alice/.ssh/id_rsa"
    read := fun _ => none }

/-- One home directory with two `authorized_keys` files: the first holds a
single malformed (one-field) line, the second a well-formed weak
`ssh-dss` line. -/
def fsC7 : HFS :=
  { homes := ["/Users/u"]
    isfile := fun p =>
      p == "/Users/u/.ssh/authorized_keys" || p == "/Users/u/.ssh2/authorized_keys"
    read := fun p =>
      if p == "/Users/u/.ssh/authorized_keys" then some ["x"]
      else if p == "/Users/u/.ssh2/authorized_keys" then some ["ssh-dss AAAA"] else none }

/-- An empty directory, used to exercise a malformed permission pattern. -/
def treeC8 : FSNode := .dir "t" 0o40755 []

/-- One home directory with a single `authorized_keys` file holding two
weak `ssh-dss` lines. -/
def fsC9 : HFS :=
  { homes := ["/Users/u"]
    isfile := fun p => p == "/Users/u/.ssh/authorized_keys"
    read := fun p =>
      if p == "/Users/u/.ssh/authorized_keys" then some ["ssh-dss AAAA", "ssh-dss BBBB"]
      else none }

/-! ## Claim theorems -/

set_option maxRecDepth 40000 in
/-- C1: the claim says an RSA key whose decoded material is 299 bytes long
is classified weak.  The code compares `sys.getsizeof(b64decode(key))` —
the decoded object's memory footprint, 33 bytes above its length — against
300, so a 299-byte key is classified *not* weak (the effective decoded
length threshold is 267, not the documented 300). -/
theorem c1_rsa_299_not_weak :
    (b64decode c1key).map List.length = .ok 299 ∧ weakLine c1line = .ok false :=
  ⟨rfl, rfl⟩

/-- C2: the claim says `find_with_perms` emits a file iff the file's own
mode matches the pattern, independent of the containing directory's mode.
The code tests `oct(stat(i)[ST_MODE])` of the visited *directory* `i` for
every contained file: with the directory at mode `777`, the mode-`644`
file `b` is emitted; with the directory at `755`, even the mode-`777`
file `a` is not. -/
theorem c2_file_mode_ignored :
    find_with_perms "/t" treeC2a "7{3}" = .ok ["/t", "/t/a", "/t/b"] ∧
    find_with_perms "/t" treeC2b "7{3}" = .ok [] :=
  ⟨rfl, rfl⟩

/-- C3: any line whose first space-separated field is `ssh-dss` and which
has a key-material field at all is classified weak, whatever the key
material is — the `elif alg == "ssh-dss"` branch never looks at the key,
and the `b64decode` call in the `ssh-rsa` branch is not evaluated
(Python's `and` short-circuits after `alg == "ssh-rsa"` fails). -/
theorem c3_dss_always_weak (line key : String) (rest : List String)
    (h : splitOnCharStr ' ' line = "ssh-dss" :: key :: rest) :
    weakLine line = .ok true := by
  unfold weakLine
  rw [h]
  rfl

/-- Witness for C3 at the line `ssh-dss AAAA`. -/
theorem c3_dss_always_weak_witness :
    splitOnCharStr ' ' "ssh-dss AAAA" = ["ssh-dss", "AAAA"] ∧
    weakLine "ssh-dss AAAA" = .ok true :=
  ⟨rfl, c3_dss_always_weak "ssh-dss AAAA" "AAAA" [] rfl⟩

/-- C4: the claim says `hash_kext` returns the digest of the first
fallback path that exists.  The chain does consult the candidates in the
claimed order, but every `return hash_file(path)` calls the Python-2
`file()` builtin, absent on the Python 3 this repository targets: with
the first fallback executable present (catalog empty, `Foo.kext` on
disk), the call raises `NameError` instead of returning a digest, and
only a name with no existing candidate at all returns `None`. -/
theorem c4_kext_digest_never_returned :
    kfsC4.isfile "/System/Library/Extensions/Foo.kext/Contents/MacOS/Foo" = true ∧
    hash_kext kfsC4 [] "Foo" = .error .nameError ∧
    hash_kext kfsC4 [] "Bar" = .ok none :=
  ⟨rfl, rfl, rfl⟩

/-- C5: the claim says `is_ssh_key` returns false for every file above the
10,000-byte ceiling or unreadable.  The code's ceiling test is
`getsizeof(filename) < 10000` — the memory footprint of the *path string*
— so a 20,000-byte file at the two-character path `/k` passes it, and the
unguarded `open` then raises `IOError` instead of returning false. -/
theorem c5_is_ssh_key_raises :
    10000 < sfsC5.size "/k" ∧ is_ssh_key sfsC5 "/k" = .error .ioError :=
  ⟨by decide, rfl⟩

/-- C8 (amended): a permission pattern that fails to compile as a regular
expression makes `find_with_perms` raise `re.error` from its first
`re.match` call (the walked root is always visited, and there is no
handler); it does not silently match nothing. -/
theorem c8_malformed_pattern_raises (root dname : String) (m : Nat) (ch : List FSNode)
    (perms : String) (e : PyErr)
    (h : reCompAux .start perms.data = .error e) :
    find_with_perms root (.dir dname m ch) perms = .error e := by
  unfold find_with_perms
  rw [walkDirs]
  unfold fwpGo fwpVisit reMatchE
  rw [h]

/-- C8 counterexample: on a directory tree, the syntactically malformed
pattern `(` makes the call raise `re.error` instead of returning an empty
result. -/
theorem c8_malformed_pattern_counterexample :
    find_with_perms "/t" treeC8 "(" = .error .reError := rfl

/-- Witness for C8 at the pattern `(` over a second concrete tree. -/
theorem c8_malformed_pattern_raises_witness :
    reCompAux RState.start "(".data = .error PyErr.reError ∧
    find_with_perms "/w" (.dir "w" 0o40700 []) "(" = .error PyErr.reError :=
  ⟨rfl, c8_malformed_pattern_raises "/w" "w" 0o40700 [] "(" .reError rfl⟩

/-- C10: `hash_kext` depends on its name argument only through the portion
after the last `.` — `kext = kext.split(".")[-1]` runs before the catalog
match and every fallback path is formed — and a reverse-DNS identifier
such as `com.vendor.driver.Name` is thereby reduced to `Name`. -/
theorem c10_hash_kext_last_component :
    (∀ (fs : KFS) (kextfind : List String) (name : String),
      hash_kext fs kextfind name = hash_kext fs kextfind (lastDotStr name)) ∧
    lastDotStr "com.vendor.driver.Name" = "Name" := by
  constructor
  · intro fs kextfind name
    unfold hash_kext
    rw [lastDotStr_idem]
  · rfl

/-! ## Success/failure characterisations for the key-listing loops -/

/-- Whether an `Except` computation succeeded. -/
def exceptOk {ε α : Type} : Except ε α → Bool
  | .ok _ => true
  | .error _ => false

theorem exceptOk_map {ε α β : Type} (g : α → β) (x : Except ε α) :
    exceptOk (x.map g) = exceptOk x := by
  cases x <;> rfl

theorem exceptOk_false_iff {ε α : Type} (x : Except ε α) :
    exceptOk x = false ↔ ∃ e, x = .error e := by
  cases x <;> simp [exceptOk]

theorem sshNoPassGo_eq (fs : HFS) : ∀ ks : List String,
    sshNoPassGo fs ks =
      if ks.all (fun k => (fs.read k).isSome)
      then .ok (ks.filter (fun k => !hasPassphraseScan ((fs.read k).getD [])))
      else .error .ioError
  | [] => by simp [sshNoPassGo]
  | k :: ks => by
    simp only [sshNoPassGo, List.all_cons, List.filter_cons]
    cases hr : fs.read k with
    | none => simp
    | some L =>
      rw [sshNoPassGo_eq fs ks]
      cases hall : ks.all (fun k' => (fs.read k').isSome) with
      | false => simp [hall]
      | true =>
        cases hpass : hasPassphraseScan L <;> simp [hall, hpass]

theorem exceptOk_weakKeysOfLines (f : String) : ∀ ls : List String,
    exceptOk (weakKeysOfLines f ls) = ls.all (fun l => exceptOk (weakLine l))
  | [] => rfl
  | l :: ls => by
    simp only [weakKeysOfLines, List.all_cons]
    cases hw : weakLine l with
    | error e => rfl
    | ok w =>
      dsimp only
      rw [exceptOk_map, exceptOk_weakKeysOfLines f ls]
      simp [exceptOk]

/-- Whether every line of a file parses without an exception; a file that
cannot be opened counts as unproblematic, since the source skips it. -/
def fileLinesOk (fs : HFS) (f : String) : Bool :=
  match fs.read f with
  | none => true
  | some ls => ls.all (fun l => exceptOk (weakLine l))

theorem exceptOk_weakKeysOfFiles (fs : HFS) : ∀ files : List String,
    exceptOk (weakKeysOfFiles fs files) = files.all (fileLinesOk fs)
  | [] => rfl
  | f :: rest => by
    simp only [weakKeysOfFiles, List.all_cons, fileLinesOk]
    cases hr : fs.read f with
    | none => simpa using exceptOk_weakKeysOfFiles fs rest
    | some ls =>
      dsimp only
      rw [← exceptOk_weakKeysOfLines f ls]
      cases hl : weakKeysOfLines f ls with
      | error e => simp [exceptOk]
      | ok here =>
        dsimp only
        rw [exceptOk_map, exceptOk_weakKeysOfFiles fs rest]
        simp [exceptOk]

/-- The contribution of one candidate file to the `list_weak_keys` result:
nothing if it cannot be opened, else its path once per weak line. -/
def weakContrib (fs : HFS) (f : String) : List String :=
  match fs.read f with
  | none => []
  | some ls => List.replicate (weakCountLines ls) f

theorem weakKeysOfLines_ok (f : String) : ∀ (ls : List String) (r : List String),
    weakKeysOfLines f ls = .ok r → r = List.replicate (weakCountLines ls) f
  | [], r => by
    intro h
    injection h with h'
    rw [← h']
    rfl
  | l :: ls, r => by
    intro h
    simp only [weakKeysOfLines] at h
    cases hw : weakLine l with
    | error e => rw [hw] at h; cases h
    | ok w =>
      rw [hw] at h
      cases hrec : weakKeysOfLines f ls with
      | error e => rw [hrec] at h; cases h
      | ok r' =>
        rw [hrec] at h
        have ih := weakKeysOfLines_ok f ls r' hrec
        cases w with
        | true =>
          simp only [Except.map, if_true] at h
          injection h with h'
          rw [← h', ih]
          simp [weakCountLines, List.filter_cons, hw, List.replicate_succ]
        | false =>
          simp only [Except.map, if_false] at h
          injection h with h'
          rw [← h', ih]
          simp [weakCountLines, List.filter_cons, hw]

theorem weakKeysOfFiles_ok (fs : HFS) : ∀ (files : List String) (r : List String),
    weakKeysOfFiles fs files = .ok r → r = files.flatMap (weakContrib fs)
  | [], r => by
    intro h
    injection h with h'
    rw [← h']
    rfl
  | f :: rest, r => by
    intro h
    simp only [weakKeysOfFiles] at h
    cases hr : fs.read f with
    | none =>
      rw [hr] at h
      dsimp only at h
      have ih := weakKeysOfFiles_ok fs rest r h
      simp [List.flatMap_cons, weakContrib, hr, ih]
    | some ls =>
      rw [hr] at h
      dsimp only at h
      cases hl : weakKeysOfLines f ls with
      | error e => rw [hl] at h; cases h
      | ok here =>
        rw [hl] at h
        cases hrec : weakKeysOfFiles fs rest with
        | error e => rw [hrec] at h; cases h
        | ok r' =>
          rw [hrec] at h
          simp only [Except.map] at h
          injection h with h'
          have ih := weakKeysOfFiles_ok fs rest r' hrec
          have hh := weakKeysOfLines_ok f ls here hl
          rw [← h', ih, hh]
          simp [List.flatMap_cons, weakContrib, hr]

/-- C6 (amended): `list_ssh_keys(no_password=True)` scans each candidate
key file line by line for the literal `ENCRYPTED`, stopping at the first
match, and returns exactly the candidates with no such line — but a
candidate that cannot be read makes the whole call raise `IOError`
(`open` is unguarded there), instead of the claimed treat-as-no-passphrase
fail-open behaviour. -/
theorem c6_no_password_filter (fs : HFS) :
    list_ssh_keys fs true =
      if (sshKeyCandidates fs).all (fun k => (fs.read k).isSome)
      then .ok ((sshKeyCandidates fs).filter
        (fun k => !hasPassphraseScan ((fs.read k).getD [])))
      else .error .ioError :=
  sshNoPassGo_eq fs (sshKeyCandidates fs)

/-- C6 counterexample: one existing `id_rsa` that cannot be opened makes
`list_ssh_keys(no_password=True)` raise instead of returning the key. -/
theorem c6_read_failure_counterexample :
    sshKeyCandidates fsC6 = ["/Users/alice/.ssh/id_rsa"] ∧
    fsC6.read "/Users/alice/.ssh/id_rsa" = none ∧
    list_ssh_keys fsC6 true = .error .ioError :=
  ⟨rfl, rfl, rfl⟩

/-- C7 (amended): `list_weak_keys` raises iff one of the authorized-keys
files it can open contains a malformed line (fewer than two
space-separated fields, or an `ssh-rsa` line with invalid base64): the
`except IOError` handler only skips files that cannot be opened, while a
line's `IndexError` or `binascii.Error` aborts the entire call. -/
theorem c7_malformed_line_aborts (fs : HFS) :
    (∃ e, list_weak_keys fs = .error e) ↔
      ∃ f ∈ list_authorized_keys fs, ∃ ls, fs.read f = some ls ∧
        ∃ l ∈ ls, ∃ e, weakLine l = .error e := by
  have hok := exceptOk_weakKeysOfFiles fs (list_authorized_keys fs)
  rw [← exceptOk_false_iff, list_weak_keys, hok, List.all_eq_false]
  simp only [Bool.not_eq_true]
  constructor
  · rintro ⟨f, hf, hfl⟩
    refine ⟨f, hf, ?_⟩
    unfold fileLinesOk at hfl
    cases hr : fs.read f with
    | none =>
      rw [hr] at hfl
      dsimp only at hfl
      exact absurd hfl (by simp)
    | some ls =>
      rw [hr] at hfl
      dsimp only at hfl
      refine ⟨ls, rfl, ?_⟩
      rw [List.all_eq_false] at hfl
      obtain ⟨l, hl, hw⟩ := hfl
      refine ⟨l, hl, ?_⟩
      rw [← exceptOk_false_iff]
      simpa using hw
  · rintro ⟨f, hf, ls, hr, l, hl, e, hw⟩
    refine ⟨f, hf, ?_⟩
    unfold fileLinesOk
    rw [hr]
    dsimp only
    rw [List.all_eq_false]
    refine ⟨l, hl, ?_⟩
    rw [hw]
    simp [exceptOk]

/-- C7 counterexample: a malformed single-field line in the first of two
readable `authorized_keys` files aborts the whole call with `IndexError`;
the sibling file's weak `ssh-dss` entry is not reported. -/
theorem c7_malformed_line_counterexample :
    list_authorized_keys fsC7 =
      ["/Users/u/.ssh/authorized_keys", "/Users/u/.ssh2/authorized_keys"] ∧
    fsC7.read "/Users/u/.ssh/authorized_keys" = some ["x"] ∧
    fsC7.read "/Users/u/.ssh2/authorized_keys" = some ["ssh-dss AAAA"] ∧
    list_weak_keys fsC7 = .error .indexError :=
  ⟨rfl, rfl, rfl, rfl⟩

/-- C9: when `list_weak_keys` succeeds, its result is, file by file in
candidate order, one copy of the file's path per weak line — a file with
`n` weak lines contributes its path `n` times, so the output is a
per-matching-line list, not a deduplicated set. -/
theorem c9_weak_keys_multiplicity (fs : HFS) (r : List String)
    (h : list_weak_keys fs = .ok r) :
    r = (list_authorized_keys fs).flatMap (weakContrib fs) :=
  weakKeysOfFiles_ok fs (list_authorized_keys fs) r h

/-- Witness for C9: a file with two weak `ssh-dss` lines appears twice. -/
theorem c9_weak_keys_multiplicity_witness :
    list_weak_keys fsC9 =
      .ok ["/Users/u/.ssh/authorized_keys", "/Users/u/.ssh/authorized_keys"] ∧
    ["/Users/u/.ssh/authorized_keys", "/Users/u/.ssh/authorized_keys"] =
      (list_authorized_keys fsC9).flatMap (weakContrib fsC9) :=
  ⟨rfl, c9_weak_keys_multiplicity fsC9 _ rfl⟩
